import Mathlib

/-!
Shallow embedding of the verse-delivery core of `memory-verse-api`.

The embedded code:
  * `internal/memory_verse/service.go` — two revisions of
    `GetUserDashboard` appear in the file; they are embedded as
    `getUserDashboardA` (first revision: pace read from `user.VersePace`,
    daily due test `>= 24h`) and `getUserDashboardB` (second revision:
    pace read from `profile.VersePace`, daily due test `<= 24h`).
  * `internal/memory_verse/scheduler.go` — `runVerseDistribution`, the
    per-user sweep body (`sweepUserStep`) and the tick fold.
  * the memory-verse repository (`GetRandomVerse`,
    `GetLastDeliveredVerse`, `SaveDeliveredVerse`, …) and
    `internal/auth/repository.go` (`GetUserWithProfile`,
    `UpdateLastVerseSentAt`).

Modelling conventions:
  * Timestamps are integers counted in seconds (`time.Duration`
    comparisons such as `now.Sub(t).Hours() >= 24` become
    `24*3600 ≤ now - t`).
  * The database is an explicit record (`Db`); each repository call is a
    pure function on it.  `ORDER BY RANDOM() LIMIT 1` is modelled by the
    first row matching the translation (the claims under study never
    depend on which row is chosen); display-only columns
    (`created_at`, `is_favourite`, password, token, …) are omitted.
  * Fallible external effects that the service branches on (notes query,
    history query, `SaveDeliveredVerse`, mail send) are driven by boolean
    flags in `Env`.
  * Go's `(value, error)` returns become `Except`/`Option`.
-/

namespace MemoryVerse

/-- Timestamps and durations in seconds. -/
abbrev Time := Int

/-- Row of `memory_verses` (display-only columns `created_at`,
`is_favourite` omitted). -/
structure Verse where
  id : Nat
  reference : String
  text : String
  translation : String
  deriving Repr, DecidableEq

/-- Row of `user_verse_history` joined with its verse
(Go struct `VerseHistory`). -/
structure VerseHistory where
  userId : Nat
  verseId : Nat
  deliveredAt : Time
  verse : Verse
  deriving Repr, DecidableEq

/-- Row of `users` joined with `user_profiles`, as scanned by
`GetUserWithProfile` / `GetAllUsersWithVersePace` (auth `User` struct;
password/token/created_at omitted). `versePace` is the profile's
`verse_pace` column, which `GetUserWithProfile` maps into
`user.VersePace`. -/
structure User where
  id : Nat
  email : String
  userName : String
  versePace : String
  bibleTranslation : String
  isProfileCompleted : Bool
  isSubscribed : Bool
  lastVerseSentAt : Option Time
  deriving Repr, DecidableEq

/-- The `CompleteProfileRequest` value returned by `GetUserWithProfile`
(only the fields the dashboard reads). -/
structure Profile where
  versePace : String
  bibleTranslation : String
  deriving Repr, DecidableEq

/-- The database state shared by every call path. `notes` stands for the
`user_notes` rows (content is display-only, kept abstract). -/
structure Db where
  users : List User
  verses : List Verse
  history : List VerseHistory
  notes : List String
  deriving Repr, DecidableEq

/-- Success/failure switches for the external calls the service merely
propagates or discards. -/
structure Env where
  notesOk : Bool
  historyOk : Bool
  saveOk : Bool
  mailOk : Bool
  deriving Repr, DecidableEq

/-- Errors of the memory-verse repository
(`ErrNotFound`, `ErrInternalServer`). -/
inductive RepoErr
  | notFound
  | internalServer
  deriving Repr, DecidableEq

/-- Service-level errors returned by `GetUserDashboard`.
`repoError e` is a raw repository error returned unchanged (note that
the repository returns `ErrNotFound`, never `sql.ErrNoRows`, so the
service's `errors.Is(err, sql.ErrNoRows)` tests are always false). -/
inductive SvcErr
  | userNotFound
  | profileIncomplete
  | invalidPace (pace : String)
  | notesFailed
  | historyFailed
  | repoError (e : RepoErr)
  | internalLogicError
  | noVerseAvailable
  deriving Repr, DecidableEq

/-! Repository operations -/

/-- Query `SELECT … FROM users u LEFT JOIN user_profiles p … WHERE u.id = $1`
(the row-lookup part shared by `GetUserWithProfile`). -/
def dbFindUser (db : Db) (userID : Nat) : Option User :=
  db.users.find? (fun u => u.id == userID)

/-- Function `GetUserWithProfile` (auth repository lines 103–177): the scan maps
the profile's `verse_pace` column into `user.VersePace` only; the
returned `CompleteProfileRequest.VersePace` is never populated and
stays at its zero value `""`. -/
def getUserWithProfile (db : Db) (userID : Nat) :
    Option (User × Profile) :=
  (dbFindUser db userID).map fun u =>
    (u, { versePace := "", bibleTranslation := u.bibleTranslation })

/-- Of two history rows, the one `ORDER BY delivered_at DESC LIMIT 1`
prefers (later row wins ties, as the SQL leaves ties unspecified). -/
def laterRec (a b : VerseHistory) : VerseHistory :=
  if a.deliveredAt ≤ b.deliveredAt then b else a

/-- Function `GetLastDeliveredVerse`: latest `user_verse_history` row of the user,
`ErrNotFound` when none exists. -/
def getLastDeliveredVerse (db : Db) (userID : Nat) :
    Except RepoErr VerseHistory :=
  match db.history.filter (fun h => h.userId == userID) with
  | [] => .error .notFound
  | h :: t => .ok (t.foldl laterRec h)

/-- Function `GetRandomVerse`: a `memory_verses` row of the requested translation
(`ORDER BY RANDOM()` modelled by the first match), `ErrNotFound` when the
translation has no content. -/
def getRandomVerse (db : Db) (translation : String) :
    Except RepoErr Verse :=
  match db.verses.filter (fun v => v.translation == translation) with
  | [] => .error .notFound
  | v :: _ => .ok v

/-- Function `SaveDeliveredVerse`: unconditional
`INSERT INTO user_verse_history (user_id, verse_id)`; `delivered_at`
defaults to the insertion time. A failed insert writes nothing. -/
def saveDeliveredVerse (db : Db) (env : Env) (userID : Nat) (v : Verse)
    (now : Time) : Except RepoErr Db :=
  if env.saveOk then
    .ok { db with
          history := db.history ++ [⟨userID, v.id, now, v⟩] }
  else .error .internalServer

/-- Function `GetUserNotes` (content abstract, read-only). -/
def getUserNotes (db : Db) (env : Env) : Except RepoErr (List String) :=
  if env.notesOk then .ok db.notes else .error .internalServer

/-- Function `GetAllUserVerseHistory` (read-only listing for display). -/
def getAllUserVerseHistory (db : Db) (env : Env) (userID : Nat) :
    Except RepoErr (List VerseHistory) :=
  if env.historyOk then
    .ok (db.history.filter (fun h => h.userId == userID))
  else .error .internalServer

/-- Function `UpdateLastVerseSentAt` (auth repository lines 444–451):
`UPDATE users SET last_verse_sent_at = $1 WHERE id = $2`. -/
def updateLastVerseSentAt (db : Db) (userID : Nat) (t : Time) : Db :=
  { db with
    users := db.users.map fun u =>
      if u.id == userID then { u with lastVerseSentAt := some t } else u }

/-- Function `strings.ToLower`, modelled character by character over the string's
underlying data (`String.toLower` itself is observationally the same but
its `mapAux` loop does not reduce in the kernel). -/
def strToLower (s : String) : String := ⟨s.data.map Char.toLower⟩

/-! Due-ness decisions -/

/-- First-revision due decision (`service.go` lines 66–71): `>=` in both
arms; the `switch` default leaves `shouldSend` false. -/
def shouldSendA (pace : String) (last : Option Time) (now : Time) : Bool :=
  match pace with
  | "daily" =>
    match last with
    | none => true
    | some t => decide ((24 : Int) * 3600 ≤ now - t)
  | "weekly" =>
    match last with
    | none => true
    | some t => decide ((168 : Int) * 3600 ≤ now - t)
  | _ => false

/-- Second-revision due decision (`service.go` lines 203–208): the daily
arm compares with `<= 24` instead of `>= 24`. -/
def shouldSendB (pace : String) (last : Option Time) (now : Time) : Bool :=
  match pace with
  | "daily" =>
    match last with
    | none => true
    | some t => decide (now - t ≤ (24 : Int) * 3600)
  | "weekly" =>
    match last with
    | none => true
    | some t => decide ((168 : Int) * 3600 ≤ now - t)
  | _ => false

/-- Sweep-path interval selection (`scheduler.go` lines 68–75): `weekly`
maps to `7 * 24h`; every other pace (the `default:` arm, commented
"default to daily") maps to `5 * time.Second`. Case-sensitive, no
`ToLower`. -/
def sendInterval (pace : String) : Time :=
  match pace with
  | "weekly" => 7 * 24 * 3600
  | _ => 5

/-- Sweep-path due check (`scheduler.go` line 77):
`user.LastVerseSentAt == nil || time.Since(user.LastVerseSentAt.UTC()) >= sendInterval`. -/
def sweepDue (user : User) (now : Time) : Bool :=
  match user.lastVerseSentAt with
  | none => true
  | some t => decide (sendInterval user.versePace ≤ now - t)

/-! The embedding of `GetUserDashboard`:

Each revision is split into a read/decision phase (everything up to and
including the `GetRandomVerse` fetch — no database writes) and a commit
phase (the `SaveDeliveredVerse` insert and the returns).  The sequential
function is the composition of the two on the same state; the race model
(`raceTwoA` below) interleaves the phases of two invocations, which is
realizable because no transaction spans the read and the insert. -/

/-- Outcome tuple `(user, verse, notes, histories)` of a successful
dashboard call. -/
structure DashOut where
  user : User
  verse : Option Verse
  notes : List String
  histories : List VerseHistory
  deriving Repr, DecidableEq

/-- Everything the read phase learned: the loaded user, the side data,
the last-delivered row and — when the due check fired and the fetch
succeeded — the verse to deliver. -/
structure Decision where
  user : User
  lastDelivered : Option VerseHistory
  notes : List String
  histories : List VerseHistory
  deliver : Option Verse
  deriving Repr, DecidableEq

/-- Read phase of revision 1 (`service.go` lines 38–97):
user+profile load, profile-completeness check, pace validation on
`strings.ToLower(user.VersePace)`, last-delivered fetch (an error is only
logged, the commented-out return keeps `lastDelivered = nil`), due
decision, notes and history loads, and the `GetRandomVerse` fetch when
due (`ErrNotFound` is not `sql.ErrNoRows`, so the raw error is
returned). -/
def dashboardDecideA (db : Db) (env : Env) (userID : Nat) (now : Time) :
    Except SvcErr Decision :=
  match getUserWithProfile db userID with
  | none => .error .userNotFound
  | some (user, profile) =>
    if user.isProfileCompleted = false then .error .profileIncomplete
    else
      let pace := strToLower user.versePace
      if pace != "daily" && pace != "weekly" then
        .error (.invalidPace pace)
      else
        let lastDelivered := (getLastDeliveredVerse db userID).toOption
        let shouldSend :=
          shouldSendA pace (lastDelivered.map (·.deliveredAt)) now
        match getUserNotes db env with
        | .error _ => .error .notesFailed
        | .ok notes =>
          match getAllUserVerseHistory db env userID with
          | .error _ => .error .historyFailed
          | .ok histories =>
            if shouldSend then
              match getRandomVerse db profile.bibleTranslation with
              | .error e => .error (.repoError e)
              | .ok v =>
                .ok ⟨user, lastDelivered, notes, histories, some v⟩
            else .ok ⟨user, lastDelivered, notes, histories, none⟩

/-- Commit phase of revision 1 (`service.go` lines 87–110): when due,
`_ = s.repo.SaveDeliveredVerse(…)` — the insert error is discarded — and
the fresh verse is returned; when not due, the last-delivered verse is
returned, or the "internal logic error" fallback when none exists. -/
def dashboardCommitA (db : Db) (env : Env) (userID : Nat) (now : Time) :
    Except SvcErr Decision → Except SvcErr DashOut × Db
  | .error e => (.error e, db)
  | .ok d =>
    match d.deliver with
    | some v =>
      let db' :=
        match saveDeliveredVerse db env userID v now with
        | .ok db' => db'
        | .error _ => db
      (.ok ⟨d.user, some v, d.notes, d.histories⟩, db')
    | none =>
      match d.lastDelivered with
      | some h => (.ok ⟨d.user, some h.verse, d.notes, d.histories⟩, db)
      | none => (.error .internalLogicError, db)

/-- Revision 1 of `GetUserDashboard` (`service.go` lines 38–111),
returning the call result and the database after the call. -/
def getUserDashboardA (db : Db) (env : Env) (userID : Nat) (now : Time) :
    Except SvcErr DashOut × Db :=
  dashboardCommitA db env userID now (dashboardDecideA db env userID now)

/-- Read phase of revision 2 (`service.go` lines 176–228): the pace is
read from `profile.VersePace` (which `GetUserWithProfile` never
populates, see `getUserWithProfile`), a last-delivered fetch error is
returned to the caller (`ErrNotFound` is not `sql.ErrNoRows`, so even
"no rows yet" propagates), and the daily due test is `<= 24h`. -/
def dashboardDecideB (db : Db) (env : Env) (userID : Nat) (now : Time) :
    Except SvcErr Decision :=
  match getUserWithProfile db userID with
  | none => .error .userNotFound
  | some (user, profile) =>
    if user.isProfileCompleted = false then .error .profileIncomplete
    else
      let pace := strToLower profile.versePace
      if pace != "daily" && pace != "weekly" then
        .error (.invalidPace pace)
      else
        match getLastDeliveredVerse db userID with
        | .error e => .error (.repoError e)
        | .ok lastRow =>
          let lastDelivered := some lastRow
          let shouldSend :=
            shouldSendB pace (lastDelivered.map (·.deliveredAt)) now
          match getUserNotes db env with
          | .error _ => .error .notesFailed
          | .ok notes =>
            match getAllUserVerseHistory db env userID with
            | .error _ => .error .historyFailed
            | .ok histories =>
              if shouldSend then
                match getRandomVerse db profile.bibleTranslation with
                | .error e => .error (.repoError e)
                | .ok v =>
                  .ok ⟨user, lastDelivered, notes, histories, some v⟩
              else .ok ⟨user, lastDelivered, notes, histories, none⟩

/-- Commit phase of revision 2 (`service.go` lines 222–241): same
discarded `SaveDeliveredVerse`, fallback message "no verse available". -/
def dashboardCommitB (db : Db) (env : Env) (userID : Nat) (now : Time) :
    Except SvcErr Decision → Except SvcErr DashOut × Db
  | .error e => (.error e, db)
  | .ok d =>
    match d.deliver with
    | some v =>
      let db' :=
        match saveDeliveredVerse db env userID v now with
        | .ok db' => db'
        | .error _ => db
      (.ok ⟨d.user, some v, d.notes, d.histories⟩, db')
    | none =>
      match d.lastDelivered with
      | some h => (.ok ⟨d.user, some h.verse, d.notes, d.histories⟩, db)
      | none => (.error .noVerseAvailable, db)

/-- Revision 2 of `GetUserDashboard` (`service.go` lines 176–241). -/
def getUserDashboardB (db : Db) (env : Env) (userID : Nat) (now : Time) :
    Except SvcErr DashOut × Db :=
  dashboardCommitB db env userID now (dashboardDecideB db env userID now)

/-! Sweep (`scheduler.go` lines 42–110):

`runVerseDistribution` snapshots the user list, skips unsubscribed
users, applies `sweepDue`, and for each due user spawns a goroutine that
calls `GetUserDashboard`, sends the mail, and — only if the mail send
succeeded — calls `UpdateLastVerseSentAt`.  The per-user goroutine body
is embedded synchronously as `sweepUserStep`; the tick runs the steps in
list order (one linearization of the fan-out).  The goroutine returns
nothing: its only outputs are the database mutations and log lines, so
the step returns `Db × List String` (the log). -/

/-- One user's slice of the sweep (`scheduler.go` lines 59–108):
skip when unsubscribed; otherwise, when `sweepDue`, run the goroutine
body: dashboard call (errors logged, "Skipping user"), mail send (on
failure log and return — the marker update below is skipped), then
`UpdateLastVerseSentAt(uID, time.Now())`. -/
def sweepUserStep (db : Db) (env : Env) (user : User) (now : Time) :
    Db × List String :=
  if user.isSubscribed = false then
    (db, ["Skipping user " ++ user.email ++ " (unsubscribed)"])
  else if sweepDue user now then
    match getUserDashboardA db env user.id now with
    | (.error _, db') => (db', ["Skipping user: dashboard error"])
    | (.ok _, db') =>
      if env.mailOk = false then
        (db', ["Failed to send verse to " ++ user.email])
      else
        (updateLastVerseSentAt db' user.id now,
         ["Verse sent to " ++ user.email])
  else (db, [])

/-- One sweep tick (`runVerseDistribution`): fold the per-user steps
over the snapshot of `GetAllUsersWithVersePace`. -/
def runVerseDistribution (db : Db) (env : Env) (now : Time) :
    Db × List String :=
  db.users.foldl
    (fun acc u =>
      let step := sweepUserStep acc.1 env u now
      (step.1, acc.2 ++ step.2))
    (db, [])

/-! Race model:

`GetUserDashboard`'s read phase and its `SaveDeliveredVerse` insert are
separate SQL statements with no enclosing transaction and no conditional
check, so two concurrent invocations may both complete their reads
before either insert.  `raceTwoA` is that interleaving
(read₁ · read₂ · write₁ · write₂) for two revision-1 invocations on the
same user at the same instant. -/
def raceTwoA (db : Db) (env : Env) (userID : Nat) (now : Time) :
    Except SvcErr DashOut × Except SvcErr DashOut × Db :=
  let d1 := dashboardDecideA db env userID now
  let d2 := dashboardDecideA db env userID now
  let (r1, db1) := dashboardCommitA db env userID now d1
  let (r2, db2) := dashboardCommitA db1 env userID now d2
  (r1, r2, db2)

/-! Projections and the specification-side predicates -/

/-- The `user_verse_history` rows of one user. -/
def recordsFor (db : Db) (userID : Nat) : List VerseHistory :=
  db.history.filter (fun h => h.userId == userID)

/-- The `last_verse_sent_at` marker of one user
(`none` when the user does not exist). -/
def markerOf (db : Db) (userID : Nat) : Option (Option Time) :=
  (dbFindUser db userID).map (·.lastVerseSentAt)

/-- Timestamp of the most recent delivery record of one user. -/
def lastRecordTime (db : Db) (userID : Nat) : Option Time :=
  ((getLastDeliveredVerse db userID).toOption).map (·.deliveredAt)

/-- The due predicate exactly as the specification states it
(§4.1/§8): due iff `lastDeliveredAt` is absent or
`now - lastDeliveredAt ≥ threshold`, with threshold 24 h for `daily`
and 168 h for `weekly`. -/
def specIsDue (pace : String) (last : Option Time) (now : Time) : Prop :=
  last = none ∨
    ∃ t, last = some t ∧
      (if pace = "weekly" then (168 : Int) * 3600 else 24 * 3600)
        ≤ now - t

instance (pace : String) (last : Option Time) (now : Time) :
    Decidable (specIsDue pace last now) := by
  unfold specIsDue
  cases last with
  | none => exact .isTrue (Or.inl rfl)
  | some t =>
    refine decidable_of_iff
      ((if pace = "weekly" then (168 : Int) * 3600 else 24 * 3600)
        ≤ now - t) ?_
    constructor
    · intro h; exact Or.inr ⟨t, rfl, h⟩
    · rintro (h | ⟨t', ht', h⟩)
      · cases h
      · cases ht'; exact h

/-- The marker/log consistency invariant exactly as the specification
states it (§3 DeliveryRecord): for every subscriber, the most recent
DeliveryRecord (by timestamp) agrees with the subscriber's
last-delivered marker. -/
def specMarkerLogConsistent (db : Db) : Prop :=
  ∀ u ∈ db.users, lastRecordTime db u.id = u.lastVerseSentAt

instance (db : Db) : Decidable (specMarkerLogConsistent db) := by
  unfold specMarkerLogConsistent
  exact List.decidableBAll _ _

/-! Concrete fixtures for witnesses and counterexamples -/

/-- A verse available in translation "NIV". -/
def verseNIV : Verse := ⟨7, "John 3:16", "For God so loved the world", "NIV"⟩

/-- A completed, subscribed daily subscriber with no delivery yet. -/
def userDaily : User :=
  ⟨1, "a@example.com", "Ann", "daily", "NIV", true, true, none⟩

/-- Database holding exactly `userDaily` and `verseNIV`, empty log. -/
def dbDaily : Db := ⟨[userDaily], [verseNIV], [], []⟩

/-- All external calls succeed. -/
def envOk : Env := ⟨true, true, true, true⟩

/-- The mail send fails; everything else succeeds. -/
def envMailFail : Env := ⟨true, true, true, false⟩

/-- The `SaveDeliveredVerse` insert fails; everything else succeeds. -/
def envSaveFail : Env := ⟨true, true, false, true⟩

/-- A completed, subscribed subscriber whose pace is the unrecognized
string "monthly", last marked sent at time 0. -/
def userMonthly : User :=
  ⟨2, "m@example.com", "Mo", "monthly", "NIV", true, true, some 0⟩

/-- Database holding exactly `userMonthly` and `verseNIV`. -/
def dbMonthly : Db := ⟨[userMonthly], [verseNIV], [], []⟩

/-- The record revision 1 appends when it delivers `verseNIV` to user 1
at time 1000. -/
def recAt1000 : VerseHistory := ⟨1, 7, 1000, verseNIV⟩

/-- A subscriber (id 3) whose profile is not completed. -/
def userIncomplete : User :=
  ⟨3, "i@example.com", "Iz", "daily", "NIV", false, true, none⟩

/-- Database holding exactly `userIncomplete`. -/
def dbIncomplete : Db := ⟨[userIncomplete], [verseNIV], [], []⟩

/-- Database with no users at all. -/
def dbNoUsers : Db := ⟨[], [verseNIV], [], []⟩

/-- The state after one successful revision-1 delivery to `userDaily`. -/
def dbAfterDelivery : Db := ⟨[userDaily], [verseNIV], [recAt1000], []⟩

/-- The successful dashboard outcome for `userDaily` at time 1000. -/
def outDaily : DashOut := ⟨userDaily, some verseNIV, [], []⟩

/-- An unsubscribed subscriber (id 4). -/
def userUnsub : User :=
  ⟨4, "u@example.com", "Una", "daily", "NIV", true, false, none⟩

/-- Database holding exactly `userUnsub`. -/
def dbUnsub : Db := ⟨[userUnsub], [verseNIV], [], []⟩

/-! ## Claims -/

/-- C1 — the claim says N concurrent `Deliver`/`Resolve` invocations
on the same due subscriber commit exactly one DeliveryRecord, the losers
observing the conflict.  The code has no conditional commit:
`SaveDeliveredVerse` is an unconditional insert, so in the interleaving
where both invocations read before either writes, both commit.  Here two
racing revision-1 dashboard calls for the due subscriber `userDaily`
both return success (no conflict is ever surfaced — `SvcErr` has no
conflict constructor at all) and the log ends with **two** delivery
records for the same eligibility window. -/
theorem race_commits_two_records :
    (raceTwoA dbDaily envOk 1 1000).1 = .ok ⟨userDaily, some verseNIV, [], []⟩ ∧
    (raceTwoA dbDaily envOk 1 1000).2.1 = .ok ⟨userDaily, some verseNIV, [], []⟩ ∧
    (raceTwoA dbDaily envOk 1 1000).2.2.history = [recAt1000, recAt1000] := by
  refine ⟨rfl, rfl, rfl⟩

/-- C2 — two sequential `Resolve` calls inside one due window.  On
revision 1 the claim's behavior holds at the concrete input: the first
call delivers `verseNIV` and records it, the second call (10 s later)
returns the same verse from the last-delivered row without a new record.
Revision 2, however, reads the pace from `profile.VersePace`, which
`GetUserWithProfile` never populates, so its very first call fails with
`invalid verse pace: ` and delivers nothing — the claimed behavior is
impossible on that revision. -/
theorem resolve_twice_same_window_eval :
    (getUserDashboardA dbDaily envOk 1 1000).1 =
      .ok ⟨userDaily, some verseNIV, [], []⟩ ∧
    (getUserDashboardA (getUserDashboardA dbDaily envOk 1 1000).2
        envOk 1 1010).1 =
      .ok ⟨userDaily, some verseNIV, [], [recAt1000]⟩ ∧
    (getUserDashboardA (getUserDashboardA dbDaily envOk 1 1000).2
        envOk 1 1010).2.history = [recAt1000] ∧
    getUserDashboardB dbDaily envOk 1 1000 =
      (.error (.invalidPace ""), dbDaily) := by
  refine ⟨rfl, rfl, rfl, rfl⟩

/-- C3 — the claim says every due-ness decision (sweep and
on-demand) is "absent or elapsed ≥ 24 h / 168 h".  The revision-1
on-demand decision does satisfy this for both paces (first conjunct).
But the sweep path's interval for `daily` (the `switch` default arm) is
5 *seconds*: a daily subscriber last sent 10 s ago is judged due by the
sweep while the specified predicate says not due.  And the revision-2
on-demand decision uses `<= 24h` for daily: 25 h after the last delivery
it says *not* due while the specified predicate says due. -/
theorem dueness_decision_eval :
    (∀ (last : Option Time) (now : Time),
      (shouldSendA "daily" last now = true ↔ specIsDue "daily" last now) ∧
      (shouldSendA "weekly" last now = true ↔ specIsDue "weekly" last now)) ∧
    sweepDue { userDaily with lastVerseSentAt := some 0 } 10 = true ∧
    ¬ specIsDue "daily" (some 0) 10 ∧
    shouldSendB "daily" (some 0) 90000 = false ∧
    specIsDue "daily" (some 0) 90000 := by
  refine ⟨?_, by decide, by decide, by decide, by decide⟩
  intro last now
  cases last with
  | none => exact ⟨by simp [shouldSendA, specIsDue], by simp [shouldSendA, specIsDue]⟩
  | some t =>
    exact ⟨by simp [shouldSendA, specIsDue],
           by simp [shouldSendA, specIsDue]⟩

/-- C5 — the claim says the most recent DeliveryRecord always agrees
with the subscriber's last-delivered marker.  The on-demand path appends
a `user_verse_history` row but never calls `UpdateLastVerseSentAt`:
starting from the consistent state `dbDaily` (no records, marker unset),
one revision-1 dashboard call leaves a log whose latest record is at
time 1000 while the marker is still `none` — the invariant is broken by
the very first on-demand delivery. -/
theorem marker_log_divergence_eval :
    specMarkerLogConsistent dbDaily ∧
    lastRecordTime (getUserDashboardA dbDaily envOk 1 1000).2 1 = some 1000 ∧
    markerOf (getUserDashboardA dbDaily envOk 1 1000).2 1 = some none ∧
    ¬ specMarkerLogConsistent (getUserDashboardA dbDaily envOk 1 1000).2 := by
  refine ⟨by decide, rfl, rfl, by decide⟩

/-! Helper lemmas -/

/-- The revision-1 read phase only ever fails with one of the load /
validation errors; the fallback constructors are never produced there. -/
lemma dashboardDecideA_error_ne (db : Db) (env : Env) (uid : Nat)
    (now : Time) (e : SvcErr)
    (h : dashboardDecideA db env uid now = .error e) :
    e ≠ .internalLogicError ∧ e ≠ .noVerseAvailable := by
  simp only [dashboardDecideA] at h
  repeat' split at h
  all_goals cases h
  all_goals exact ⟨fun hc => SvcErr.noConfusion hc,
    fun hc => SvcErr.noConfusion hc⟩

/-- The revision-2 read phase likewise never produces the fallback
constructors. -/
lemma dashboardDecideB_error_ne (db : Db) (env : Env) (uid : Nat)
    (now : Time) (e : SvcErr)
    (h : dashboardDecideB db env uid now = .error e) :
    e ≠ .internalLogicError ∧ e ≠ .noVerseAvailable := by
  simp only [dashboardDecideB] at h
  repeat' split at h
  all_goals cases h
  all_goals exact ⟨fun hc => SvcErr.noConfusion hc,
    fun hc => SvcErr.noConfusion hc⟩

/-- From a passed pace validation, the pace is literally `"daily"` or
`"weekly"`. -/
lemma pace_valid_of_check (pace : String)
    (h : (pace != "daily" && pace != "weekly") = false) :
    pace = "daily" ∨ pace = "weekly" := by
  rcases Bool.and_eq_false_iff.mp h with h' | h'
  · exact Or.inl (by simpa using h')
  · exact Or.inr (by simpa using h')

/-- For either recognized pace, an absent last-delivered row means
"due" in the revision-1 decision. -/
lemma shouldSendA_none (pace : String)
    (h : pace = "daily" ∨ pace = "weekly") (now : Time) :
    shouldSendA pace none now = true := by
  rcases h with h | h <;> subst h <;> rfl

/-- For either recognized pace, an absent last-delivered row also means
"due" in the revision-2 decision. -/
lemma shouldSendB_none (pace : String)
    (h : pace = "daily" ∨ pace = "weekly") (now : Time) :
    shouldSendB pace none now = true := by
  rcases h with h | h <;> subst h <;> rfl

/-- When the revision-1 read phase succeeds without a verse to deliver,
a last-delivered row was present (otherwise the decision would have been
"due"). -/
lemma dashboardDecideA_none_last (db : Db) (env : Env) (uid : Nat)
    (now : Time) (d : Decision)
    (h : dashboardDecideA db env uid now = .ok d)
    (hd : d.deliver = none) :
    d.lastDelivered.isSome := by
  simp only [dashboardDecideA] at h
  repeat' split at h
  all_goals cases h
  · cases hd
  · rename_i hpace x1 notes1 hnotes x2 hist1 hhist hsend
    simp only [Decision.lastDelivered]
    cases hlast : (getLastDeliveredVerse db uid).toOption with
    | some r => simp
    | none =>
      exfalso
      rw [hlast] at hsend
      have hv := pace_valid_of_check _ (by simpa using hpace)
      have := shouldSendA_none _ hv now
      simp only [Option.map_none'] at hsend
      exact hsend this

/-- Same statement for the revision-2 read phase (there the
last-delivered row is always present on success, since a missing row is
returned as an error). -/
lemma dashboardDecideB_none_last (db : Db) (env : Env) (uid : Nat)
    (now : Time) (d : Decision)
    (h : dashboardDecideB db env uid now = .ok d)
    (hd : d.deliver = none) :
    d.lastDelivered.isSome := by
  simp only [dashboardDecideB] at h
  repeat' split at h
  all_goals cases h
  · cases hd
  · simp

/-- Revision-1 `GetUserDashboard` never touches the `users` table and
only ever appends rows of the called user to the history log. -/
lemma getUserDashboardA_effect (db : Db) (env : Env) (uid : Nat)
    (now : Time) :
    ∃ tail, (getUserDashboardA db env uid now).2 =
        { db with history := db.history ++ tail } ∧
      ∀ r ∈ tail, r.userId = uid := by
  unfold getUserDashboardA dashboardCommitA
  cases hdec : dashboardDecideA db env uid now with
  | error e => exact ⟨[], by simp, by simp⟩
  | ok d =>
    cases hdel : d.deliver with
    | some v =>
      cases hsave : env.saveOk with
      | true =>
        exact ⟨[⟨uid, v.id, now, v⟩],
          by simp [hdel, saveDeliveredVerse, hsave], by simp⟩
      | false =>
        exact ⟨[], by simp [hdel, saveDeliveredVerse, hsave], by simp⟩
    | none =>
      cases hlast : d.lastDelivered with
      | some h => exact ⟨[], by simp [hdel, hlast], by simp⟩
      | none => exact ⟨[], by simp [hdel, hlast], by simp⟩

/-- The `users` table after a revision-1 dashboard call. -/
lemma getUserDashboardA_users (db : Db) (env : Env) (uid : Nat)
    (now : Time) :
    (getUserDashboardA db env uid now).2.users = db.users := by
  obtain ⟨tail, heq, -⟩ := getUserDashboardA_effect db env uid now
  rw [heq]


/-- C10 — for a recognized pace an absent last-delivered row always
makes the due decision true (both revisions), so the final fallback
branch of `GetUserDashboard` ("internal logic error" in revision 1,
"no verse available" in revision 2) is unreachable: the function either
delivers a new verse or returns the last-delivered one. -/
theorem fallback_branch_unreachable (db : Db) (env : Env) (uid : Nat)
    (now : Time) (pace : String)
    (hpace : pace = "daily" ∨ pace = "weekly") :
    shouldSendA pace none now = true ∧
    shouldSendB pace none now = true ∧
    (getUserDashboardA db env uid now).1 ≠ .error .internalLogicError ∧
    (getUserDashboardB db env uid now).1 ≠ .error .noVerseAvailable := by
  refine ⟨shouldSendA_none pace hpace now, shouldSendB_none pace hpace now,
    ?_, ?_⟩
  · unfold getUserDashboardA dashboardCommitA
    cases hdec : dashboardDecideA db env uid now with
    | error e =>
      intro hc
      simp only at hc
      exact (dashboardDecideA_error_ne db env uid now e hdec).1 (by
        injection hc)
    | ok d =>
      cases hdel : d.deliver with
      | some v => simp [hdel]
      | none =>
        cases hlast : d.lastDelivered with
        | some h => simp [hdel, hlast]
        | none =>
          have := dashboardDecideA_none_last db env uid now d hdec hdel
          rw [hlast] at this
          cases this
  · unfold getUserDashboardB dashboardCommitB
    cases hdec : dashboardDecideB db env uid now with
    | error e =>
      intro hc
      simp only at hc
      exact (dashboardDecideB_error_ne db env uid now e hdec).2 (by
        injection hc)
    | ok d =>
      cases hdel : d.deliver with
      | some v => simp [hdel]
      | none =>
        cases hlast : d.lastDelivered with
        | some h => simp [hdel, hlast]
        | none =>
          have := dashboardDecideB_none_last db env uid now d hdec hdel
          rw [hlast] at this
          cases this

/-- Witness for `fallback_branch_unreachable` at a concrete input. -/
theorem fallback_branch_unreachable_witness :
    (getUserDashboardA dbDaily envOk 1 1000).1 ≠
      .error .internalLogicError :=
  (fallback_branch_unreachable dbDaily envOk 1 1000 "daily"
    (Or.inl rfl)).2.2.1


/-- C7 — when the subscriber does not exist, or exists with an
incomplete profile, both revisions of `GetUserDashboard` fail with the
corresponding error and leave the database untouched (the statement
quantifies over every database with that shape, so the outcome is
independent of the verse table and the history log: no artifact fetch
and no eligibility evaluation can have influenced it). -/
theorem resolve_fails_before_eligibility (db : Db) (env : Env)
    (uid : Nat) (now : Time) :
    (dbFindUser db uid = none →
      getUserDashboardA db env uid now = (.error .userNotFound, db) ∧
      getUserDashboardB db env uid now = (.error .userNotFound, db)) ∧
    ∀ u, dbFindUser db uid = some u → u.isProfileCompleted = false →
      getUserDashboardA db env uid now = (.error .profileIncomplete, db) ∧
      getUserDashboardB db env uid now = (.error .profileIncomplete, db) := by
  constructor
  · intro h
    constructor <;>
      simp [getUserDashboardA, getUserDashboardB, dashboardDecideA,
        dashboardDecideB, dashboardCommitA, dashboardCommitB,
        getUserWithProfile, h]
  · intro u hu hp
    constructor <;>
      simp [getUserDashboardA, getUserDashboardB, dashboardDecideA,
        dashboardDecideB, dashboardCommitA, dashboardCommitB,
        getUserWithProfile, hu, hp]

/-- Witness for `resolve_fails_before_eligibility` at concrete
inputs covering both failure modes. -/
theorem resolve_fails_before_eligibility_witness :
    getUserDashboardA dbNoUsers envOk 1 0 =
      (.error .userNotFound, dbNoUsers) ∧
    getUserDashboardB dbIncomplete envOk 3 0 =
      (.error .profileIncomplete, dbIncomplete) :=
  ⟨((resolve_fails_before_eligibility dbNoUsers envOk 1 0).1 rfl).1,
   ((resolve_fails_before_eligibility dbIncomplete envOk 3 0).2
      userIncomplete rfl rfl).2⟩

/-- C9 — when the subscriber is due and a verse was fetched, the
`SaveDeliveredVerse` error is discarded (`_ =` in both revisions): the
call still returns the fresh verse with no error, and with the insert
failing the database is unchanged, so a successful result does not
guarantee that a DeliveryRecord for the returned verse exists. -/
theorem save_error_discarded (db : Db) (env : Env) (uid : Nat)
    (now : Time) (d : Decision) (v : Verse)
    (hsave : env.saveOk = false)
    (hdel : d.deliver = some v) :
    dashboardCommitA db env uid now (.ok d) =
      (.ok ⟨d.user, some v, d.notes, d.histories⟩, db) ∧
    dashboardCommitB db env uid now (.ok d) =
      (.ok ⟨d.user, some v, d.notes, d.histories⟩, db) ∧
    (dashboardDecideA db env uid now = .ok d →
      getUserDashboardA db env uid now =
        (.ok ⟨d.user, some v, d.notes, d.histories⟩, db)) := by
  refine ⟨?_, ?_, ?_⟩
  · simp [dashboardCommitA, hdel, saveDeliveredVerse, hsave]
  · simp [dashboardCommitB, hdel, saveDeliveredVerse, hsave]
  · intro hdec
    simp [getUserDashboardA, hdec, dashboardCommitA, hdel,
      saveDeliveredVerse, hsave]

/-- Witness for `save_error_discarded` at a concrete input. -/
theorem save_error_discarded_witness :
    getUserDashboardA dbDaily envSaveFail 1 1000 =
      (.ok ⟨userDaily, some verseNIV, [], []⟩, dbDaily) :=
  (save_error_discarded dbDaily envSaveFail 1 1000
    ⟨userDaily, none, [], [], some verseNIV⟩ verseNIV rfl rfl).2.2 rfl


/-- C4, counterexample — the claim says both call paths reject an
unrecognized pace and never fall through to a default cadence.  The
sweep path does fall through: for pace "monthly" the `switch` default
arm yields the 5-second cadence and the due check treats the subscriber
as due 10 s after the last send, with no invalid-pace failure in the
sweep's eligibility decision.  (The on-demand path does reject, third
conjunct.) -/
theorem sweep_falls_through_to_default_cadence :
    sendInterval "monthly" = 5 ∧
    sweepDue userMonthly 10 = true ∧
    getUserDashboardA dbMonthly envOk 2 10 =
      (.error (.invalidPace "monthly"), dbMonthly) := by
  refine ⟨rfl, rfl, rfl⟩

/-- C4, amended — for any pace that lowercases to neither "daily" nor
"weekly": the on-demand path fails with the invalid-pace error and
leaves the database unchanged (both revisions; revision 2 reports the
never-populated profile pace ""), while the sweep path's due check may
fall through to the 5-second default cadence, but the delivery it then
invokes is `GetUserDashboard`, which rejects the pace — so the sweep
step never changes the database for such a subscriber either. -/
theorem invalid_pace_never_delivers (db : Db) (env : Env) (u : User)
    (now : Time)
    (hu : dbFindUser db u.id = some u)
    (hc : u.isProfileCompleted = true)
    (hd : strToLower u.versePace ≠ "daily")
    (hw : strToLower u.versePace ≠ "weekly") :
    getUserDashboardA db env u.id now =
      (.error (.invalidPace (strToLower u.versePace)), db) ∧
    getUserDashboardB db env u.id now = (.error (.invalidPace ""), db) ∧
    (sweepUserStep db env u now).1 = db := by
  have hd' : (strToLower u.versePace != "daily") = true := by simpa using hd
  have hw' : (strToLower u.versePace != "weekly") = true := by simpa using hw
  have hA : getUserDashboardA db env u.id now =
      (.error (.invalidPace (strToLower u.versePace)), db) := by
    simp [getUserDashboardA, dashboardDecideA, dashboardCommitA,
      getUserWithProfile, hu, hc, hd', hw']
  refine ⟨hA, ?_, ?_⟩
  · have h1 : (strToLower "" != "daily") = true := by decide
    have h2 : (strToLower "" != "weekly") = true := by decide
    have h0 : strToLower "" = "" := rfl
    simp [getUserDashboardB, dashboardDecideB, dashboardCommitB,
      getUserWithProfile, hu, hc, h1, h2, h0]
  · unfold sweepUserStep
    cases hsub : u.isSubscribed with
    | false => simp
    | true =>
      cases hdue : sweepDue u now with
      | false => simp [hdue]
      | true => simp [hdue, hA]

/-- Witness for `invalid_pace_never_delivers` at a concrete input. -/
theorem invalid_pace_never_delivers_witness :
    getUserDashboardA dbMonthly envOk 2 10 =
      (.error (.invalidPace "monthly"), dbMonthly) ∧
    (sweepUserStep dbMonthly envOk userMonthly 10).1 = dbMonthly := by
  have h := invalid_pace_never_delivers dbMonthly envOk userMonthly 10
    rfl rfl (by decide) (by decide)
  exact ⟨h.1, h.2.2⟩


/-- C6, counterexample — the claim says a notification failure leaves
the committed delivery state unchanged relative to a successful send.
At a concrete due subscriber: with the mail failing the DeliveryRecord
is kept but the marker stays `none`, while with the mail succeeding the
marker advances to `some 1000` — the marker update *is* withheld on
notification failure. -/
theorem mail_failure_marker_differs_eval :
    (sweepUserStep dbDaily envMailFail userDaily 1000).1.history =
      [recAt1000] ∧
    markerOf (sweepUserStep dbDaily envMailFail userDaily 1000).1 1 =
      some none ∧
    markerOf (sweepUserStep dbDaily envOk userDaily 1000).1 1 =
      some (some 1000) := by
  refine ⟨rfl, rfl, rfl⟩

/-- C6, amended — on a sweep delivery whose mail send fails, the
DeliveryRecord committed by the dashboard call is kept (not rolled
back) and the failure is only logged (the step returns no error, just
the state and the log), but the goroutine returns before
`UpdateLastVerseSentAt`, so the `last_verse_sent_at` marker advance is
skipped: the `users` table is exactly as before the step. -/
theorem mail_failure_keeps_record_skips_marker (db : Db) (env : Env)
    (u : User) (now : Time) (out : DashOut) (db' : Db)
    (hsub : u.isSubscribed = true)
    (hdue : sweepDue u now = true)
    (hdash : getUserDashboardA db env u.id now = (.ok out, db'))
    (hmail : env.mailOk = false) :
    sweepUserStep db env u now =
      (db', ["Failed to send verse to " ++ u.email]) ∧
    db'.users = db.users := by
  constructor
  · simp [sweepUserStep, hsub, hdue, hdash, hmail]
  · have h := getUserDashboardA_users db env u.id now
    rw [hdash] at h
    exact h

/-- Witness for `mail_failure_keeps_record_skips_marker` at a
concrete input. -/
theorem mail_failure_keeps_record_skips_marker_witness :
    sweepUserStep dbDaily envMailFail userDaily 1000 =
      (dbAfterDelivery, ["Failed to send verse to a@example.com"]) ∧
    dbAfterDelivery.users = dbDaily.users :=
  mail_failure_keeps_record_skips_marker dbDaily envMailFail userDaily
    1000 outDaily dbAfterDelivery rfl rfl rfl rfl


/-- Lookup by one id is unchanged by a marker update keyed to a
different id. -/
lemma find?_map_update (l : List User) (wid uid : Nat) (t : Time)
    (h : wid ≠ uid) :
    (l.map fun u =>
        if u.id == wid then { u with lastVerseSentAt := some t } else u).find?
        (fun u => u.id == uid) =
      l.find? (fun u => u.id == uid) := by
  induction l with
  | nil => rfl
  | cons a l ih =>
    simp only [List.map_cons, List.find?_cons]
    by_cases haw : a.id = wid
    · subst haw
      have hau : (a.id == uid) = false := by simpa using h
      simp only [beq_self_eq_true, if_true]
      simp only [hau]
      exact ih
    · have hfa : (if (a.id == wid) = true
          then { a with lastVerseSentAt := some t } else a) = a := by
        simp [haw]
      rw [hfa]
      cases hau : (a.id == uid) with
      | false => simp only [hau]; exact ih
      | true => simp only [hau]

/-- Marker projection is unchanged by `UpdateLastVerseSentAt` for a
different user. -/
lemma markerOf_update_ne (db : Db) (wid uid : Nat) (t : Time)
    (h : wid ≠ uid) :
    markerOf (updateLastVerseSentAt db wid t) uid = markerOf db uid := by
  unfold markerOf dbFindUser updateLastVerseSentAt
  simp only
  rw [find?_map_update db.users wid uid t h]

/-- Appending only other users' rows leaves a user's record slice
unchanged. -/
lemma recordsFor_historyAppend (db : Db) (tail : List VerseHistory)
    (uid : Nat) (htail : tail.filter (fun r => r.userId == uid) = []) :
    recordsFor { db with history := db.history ++ tail } uid =
      recordsFor db uid := by
  unfold recordsFor
  simp [List.filter_append, htail]

/-- Frame property of the per-user sweep body: processing user `w`
never changes the records or the marker of a different user id. -/
lemma sweepUserStep_frame (db : Db) (env : Env) (w : User) (now : Time)
    (uid : Nat) (h : w.id ≠ uid) :
    recordsFor (sweepUserStep db env w now).1 uid = recordsFor db uid ∧
    markerOf (sweepUserStep db env w now).1 uid = markerOf db uid := by
  obtain ⟨tail, heq, htail⟩ := getUserDashboardA_effect db env w.id now
  have htail0 : tail.filter (fun r => r.userId == uid) = [] := by
    rw [List.filter_eq_nil_iff]
    intro r hr
    rw [htail r hr]
    simp [h]
  have hrec : recordsFor (getUserDashboardA db env w.id now).2 uid =
      recordsFor db uid := by
    rw [heq]; exact recordsFor_historyAppend db tail uid htail0
  have hmark : markerOf (getUserDashboardA db env w.id now).2 uid =
      markerOf db uid := by
    rw [heq]; rfl
  unfold sweepUserStep
  cases hsub : w.isSubscribed with
  | false => simp
  | true =>
    cases hdue : sweepDue w now with
    | false => simp [hdue]
    | true =>
      simp only [hdue, Bool.true_eq_false, if_false, if_true]
      cases hdash : getUserDashboardA db env w.id now with
      | mk r db2 =>
        rw [hdash] at hrec hmark
        cases r with
        | error e => exact ⟨hrec, hmark⟩
        | ok out =>
          cases hmail : env.mailOk with
          | false => simpa [hmail] using ⟨hrec, hmark⟩
          | true =>
            simp only [hmail]
            refine ⟨by simpa using hrec, ?_⟩
            show markerOf (updateLastVerseSentAt db2 w.id now) uid =
              markerOf db uid
            rw [markerOf_update_ne db2 w.id uid now h]
            exact hmark


/-- Lines 61–64 of the scheduler: an unsubscribed user is skipped
with a log line and no state change at all. -/
lemma sweepUserStep_unsubscribed (db : Db) (env : Env) (w : User)
    (now : Time) (h : w.isSubscribed = false) :
    sweepUserStep db env w now =
      (db, ["Skipping user " ++ w.email ++ " (unsubscribed)"]) := by
  simp [sweepUserStep, h]

/-- Folding the sweep over a user list preserves the records and the
marker of an id whose only carriers in the list are unsubscribed. -/
lemma tick_fold_preserves (env : Env) (now : Time) (uid : Nat) :
    ∀ (l : List User) (db : Db) (logs : List String),
      (∀ w ∈ l, w.id = uid → w.isSubscribed = false) →
      recordsFor (l.foldl (fun acc u =>
          let step := sweepUserStep acc.1 env u now
          (step.1, acc.2 ++ step.2)) (db, logs)).1 uid =
        recordsFor db uid ∧
      markerOf (l.foldl (fun acc u =>
          let step := sweepUserStep acc.1 env u now
          (step.1, acc.2 ++ step.2)) (db, logs)).1 uid =
        markerOf db uid := by
  intro l
  induction l with
  | nil => intro db logs _; exact ⟨rfl, rfl⟩
  | cons w l ih =>
    intro db logs hall
    have hstep : recordsFor (sweepUserStep db env w now).1 uid =
        recordsFor db uid ∧
        markerOf (sweepUserStep db env w now).1 uid = markerOf db uid := by
      by_cases hid : w.id = uid
      · rw [sweepUserStep_unsubscribed db env w now
          (hall w (List.mem_cons_self w l) hid)]
        exact ⟨rfl, rfl⟩
      · exact sweepUserStep_frame db env w now uid hid
    have ihr := ih (sweepUserStep db env w now).1
      (logs ++ (sweepUserStep db env w now).2)
      (fun w2 hw2 => hall w2 (List.mem_cons_of_mem w hw2))
    exact ⟨ihr.1.trans hstep.1, ihr.2.trans hstep.2⟩

/-- C8 — an unsubscribed subscriber is skipped entirely by the sweep:
the per-user step returns the state unchanged with only a skip log
(regardless of due-ness, pace or marker), and a whole tick over a
user table with distinct ids leaves that subscriber's DeliveryRecords
and last-sent marker exactly as they were. -/
theorem sweep_tick_skips_unsubscribed (db : Db) (env : Env) (u : User)
    (now : Time) (hsub : u.isSubscribed = false)
    (hmem : u ∈ db.users)
    (hnodup : (db.users.map User.id).Nodup) :
    sweepUserStep db env u now =
      (db, ["Skipping user " ++ u.email ++ " (unsubscribed)"]) ∧
    recordsFor (runVerseDistribution db env now).1 u.id =
      recordsFor db u.id ∧
    markerOf (runVerseDistribution db env now).1 u.id =
      markerOf db u.id := by
  refine ⟨sweepUserStep_unsubscribed db env u now hsub, ?_⟩
  have hall : ∀ w ∈ db.users, w.id = u.id → w.isSubscribed = false := by
    intro w hw hid
    have hwu : w = u := List.inj_on_of_nodup_map hnodup hw hmem hid
    rw [hwu]
    exact hsub
  exact tick_fold_preserves env now u.id db.users db [] hall

/-- Witness for `sweep_tick_skips_unsubscribed` at a concrete
input. -/
theorem sweep_tick_skips_unsubscribed_witness :
    sweepUserStep dbUnsub envOk userUnsub 0 =
      (dbUnsub, ["Skipping user u@example.com (unsubscribed)"]) ∧
    recordsFor (runVerseDistribution dbUnsub envOk 0).1 4 =
      recordsFor dbUnsub 4 ∧
    markerOf (runVerseDistribution dbUnsub envOk 0).1 4 =
      markerOf dbUnsub 4 :=
  sweep_tick_skips_unsubscribed dbUnsub envOk userUnsub 0 rfl
    (List.mem_singleton.mpr rfl) (by decide)

end MemoryVerse
